import Mathlib

/-!
Verification development for the security-manager authorization core.

Shallow embedding of:
- src/common/cynara.cpp : the policy-administration layer (CynaraAdmin) and the
  asynchronous authorization-check client (Cynara);
- privilege_db.cpp : the persistent privilege store (PrivilegeDb).

External interface values (the CYNARA_API_* and CYNARA_ADMIN_* constants) are the
published values of the cynara client/admin C library (cynara-error.h,
cynara-admin-types.h), which the source includes but which is not part of this
repository.  Machine integers are modelled as Int/Nat; C++ exceptions as Except /
explicit outcome types; the out-parameters of the store operations as explicit
result fields.  Store state (the SQLite database, the cynara policy database) is
modelled as lists of rows, and calls into the external stores as explicit call
traces, so that "performs no call" is a provable statement.
-/

namespace SecurityManager

/-! ## Cynara C library interface constants

Values from cynara-error.h of the cynara library.  Only the relations between
them that the source relies on matter for the proofs; the headline fact used for
claim C1 is that CYNARA_API_ACCESS_DENIED is a nonzero int (it is distinct from
CYNARA_API_SUCCESS = 0, both being separate case labels of the same C++ switch).
-/

def CYNARA_API_ACCESS_ALLOWED : Int := 2
def CYNARA_API_ACCESS_DENIED : Int := 1
def CYNARA_API_SUCCESS : Int := 0
def CYNARA_API_CACHE_MISS : Int := -1
def CYNARA_API_MAX_PENDING_REQUESTS : Int := -2
def CYNARA_API_OUT_OF_MEMORY : Int := -3
def CYNARA_API_INVALID_PARAM : Int := -4
def CYNARA_API_SERVICE_NOT_AVAILABLE : Int := -5
def CYNARA_API_METHOD_NOT_SUPPORTED : Int := -6
def CYNARA_API_OPERATION_NOT_ALLOWED : Int := -7
def CYNARA_API_OPERATION_FAILED : Int := -8
def CYNARA_API_BUCKET_NOT_FOUND : Int := -9

/-- Values from cynara-admin-types.h.  CynaraAdminPolicy::Operation in the
repository's cynara.h mirrors these ints (Delete, Deny, None, Bucket, Allow). -/
def CYNARA_ADMIN_DELETE : Int := -1
def CYNARA_ADMIN_DENY : Int := 0
def CYNARA_ADMIN_NONE : Int := 1
def CYNARA_ADMIN_BUCKET : Int := 2
def CYNARA_ADMIN_ALLOW : Int := 3
def CYNARA_ADMIN_WILDCARD : String := "*"
def CYNARA_ADMIN_ANY : String := "#"
def CYNARA_ADMIN_DEFAULT_BUCKET : String := ""

/-- Decidable equality for Except values, needed to evaluate the embedded
operations on concrete inputs. -/
instance {ε α : Type} [DecidableEq ε] [DecidableEq α] : DecidableEq (Except ε α) :=
  fun x y =>
    match x, y with
    | .ok a, .ok b =>
        if h : a = b then .isTrue (by rw [h]) else .isFalse (by simp [h])
    | .error a, .error b =>
        if h : a = b then .isTrue (by rw [h]) else .isFalse (by simp [h])
    | .ok _, .error _ => .isFalse (by simp)
    | .error _, .ok _ => .isFalse (by simp)

/-- Exception kinds thrown by checkCynaraError (CynaraException in cynara.h). -/
inductive CynaraException
  | MaxPendingRequests
  | OutOfMemory
  | InvalidParam
  | ServiceNotAvailable
  | MethodNotSupported
  | OperationNotAllowed
  | OperationFailed
  | BucketNotFound
  | UnknownError
deriving DecidableEq

/-- Embedding of checkCynaraError (cynara.cpp, lines 207-234): maps a cynara
result code to a bool or throws a classified exception.  The diagnostic message
argument of the source carries no behaviour and is dropped. -/
def checkCynaraError (result : Int) : Except CynaraException Bool :=
  if result = CYNARA_API_SUCCESS then .ok true
  else if result = CYNARA_API_ACCESS_ALLOWED then .ok true
  else if result = CYNARA_API_ACCESS_DENIED then .ok false
  else if result = CYNARA_API_MAX_PENDING_REQUESTS then .error .MaxPendingRequests
  else if result = CYNARA_API_OUT_OF_MEMORY then .error .OutOfMemory
  else if result = CYNARA_API_INVALID_PARAM then .error .InvalidParam
  else if result = CYNARA_API_SERVICE_NOT_AVAILABLE then .error .ServiceNotAvailable
  else if result = CYNARA_API_METHOD_NOT_SUPPORTED then .error .MethodNotSupported
  else if result = CYNARA_API_OPERATION_NOT_ALLOWED then .error .OperationNotAllowed
  else if result = CYNARA_API_OPERATION_FAILED then .error .OperationFailed
  else if result = CYNARA_API_BUCKET_NOT_FOUND then .error .BucketNotFound
  else .error .UnknownError

/-! ## Policy administration (CynaraAdmin) -/

/-- The fixed bucket identifiers (enum class Bucket in cynara.h, used by
cynara.cpp). -/
inductive Bucket
  | PRIVACY_MANAGER
  | MAIN
  | USER_TYPE_ADMIN
  | USER_TYPE_NORMAL
  | USER_TYPE_GUEST
  | USER_TYPE_SYSTEM
  | ADMIN
  | MANIFESTS
deriving DecidableEq

/-- Embedding of CynaraAdmin::Buckets (cynara.cpp, lines 102-112). -/
def Buckets : Bucket → String
  | .PRIVACY_MANAGER => CYNARA_ADMIN_DEFAULT_BUCKET
  | .MAIN => "MAIN"
  | .USER_TYPE_ADMIN => "USER_TYPE_ADMIN"
  | .USER_TYPE_NORMAL => "USER_TYPE_NORMAL"
  | .USER_TYPE_GUEST => "USER_TYPE_GUEST"
  | .USER_TYPE_SYSTEM => "USER_TYPE_SYSTEM"
  | .ADMIN => "ADMIN"
  | .MANIFESTS => "MANIFESTS"

/-- Value content of a struct cynara_admin_policy / CynaraAdminPolicy.  The
C strings of the source are owned copies; here they are plain values, and the
nullable result_extra is an Option. -/
structure CynaraAdminPolicy where
  bucket : String
  client : String
  user : String
  privilege : String
  result : Int
  result_extra : Option String
deriving DecidableEq

/-- Embedding of the operation-result constructor CynaraAdminPolicy(client,
user, privilege, operation, bucket) (cynara.cpp, lines 115-136), success path
(the out-of-memory path aborts construction and is environmental). -/
def CynaraAdminPolicy.mkOperation (client user privilege : String) (operation : Int)
    (bucket : String) : CynaraAdminPolicy :=
  { bucket := bucket, client := client, user := user, privilege := privilege,
    result := operation, result_extra := none }

/-- Embedding of the bucket-redirect constructor CynaraAdminPolicy(client, user,
privilege, goToBucket, bucket) (cynara.cpp, lines 138-160), success path:
result is CYNARA_ADMIN_BUCKET and result_extra the target bucket. -/
def CynaraAdminPolicy.mkGoToBucket (client user privilege goToBucket bucket : String) :
    CynaraAdminPolicy :=
  { bucket := bucket, client := client, user := user, privilege := privilege,
    result := CYNARA_ADMIN_BUCKET, result_extra := some goToBucket }

/-- A call submitted to the cynara administrative store.  SetPolicies is
observable as a trace of such calls, so that "no call is performed" and "one
batched call is performed" are provable statements. -/
inductive AdminCall
  | setPolicies (policies : List CynaraAdminPolicy)
deriving DecidableEq

/-- Embedding of CynaraAdmin::SetPolicies (cynara.cpp, lines 258-284): an empty
batch returns before contacting the store; a non-empty batch is marshalled into
one null-terminated array and submitted in a single
cynara_admin_set_policies call. -/
def SetPolicies (policies : List CynaraAdminPolicy) : List AdminCall :=
  if policies.isEmpty then [] else [.setPolicies policies]

/-- Lexicographic three-way comparison of char lists: the semantics of
std::string::compare as used by UpdateAppPolicy (byte-lexicographic order on
UTF-8 strings equals this code-point-lexicographic order). -/
def compareChars : List Char → List Char → Ordering
  | [], [] => .eq
  | [], _ :: _ => .lt
  | _ :: _, [] => .gt
  | a :: as, b :: bs =>
      if a < b then .lt
      else if b < a then .gt
      else compareChars as bs

/-- Sign of oldIter->compare(*newIter) in UpdateAppPolicy (cynara.cpp,
line 300). -/
def strCompare (a b : String) : Ordering :=
  compareChars a.data b.data

/-- Strict order induced by strCompare; the sortedness precondition of
UpdateAppPolicy ("already sorted and without duplicates") is sortedness under
this order. -/
def strLt (a b : String) : Prop := strCompare a b = .lt

instance : DecidableRel strLt := fun a b => by
  unfold strLt; infer_instance

/-- The Delete rule pushed for a privilege present only in oldPrivileges
(cynara.cpp, lines 310-312 and 327-329). -/
def deleteRule (label user privilege : String) : CynaraAdminPolicy :=
  CynaraAdminPolicy.mkOperation label user privilege CYNARA_ADMIN_DELETE
    (Buckets .MANIFESTS)

/-- The Allow rule pushed for a privilege present only in newPrivileges
(cynara.cpp, lines 317-319 and 335-337). -/
def allowRule (label user privilege : String) : CynaraAdminPolicy :=
  CynaraAdminPolicy.mkOperation label user privilege CYNARA_ADMIN_ALLOW
    (Buckets .MANIFESTS)

/-- Embedding of the sort-merge join of CynaraAdmin::UpdateAppPolicy
(cynara.cpp, lines 292-338): the while loop over both sequences plus the two
trailing drain loops, producing the policies vector in push order. -/
def UpdateAppPolicyRules (label user : String) :
    List String → List String → List CynaraAdminPolicy
  | o :: os, n :: ns =>
      match strCompare o n with
      | .eq => UpdateAppPolicyRules label user os ns
      | .lt => deleteRule label user o :: UpdateAppPolicyRules label user os (n :: ns)
      | .gt => allowRule label user n :: UpdateAppPolicyRules label user (o :: os) ns
  | o :: os, [] => deleteRule label user o :: UpdateAppPolicyRules label user os []
  | [], n :: ns => allowRule label user n :: UpdateAppPolicyRules label user [] ns
  | [], [] => []
  termination_by oldPrivileges newPrivileges => oldPrivileges.length + newPrivileges.length

/-- Embedding of CynaraAdmin::UpdateAppPolicy (cynara.cpp, lines 286-341): the
merged batch is handed to SetPolicies in one call; the produced admin-call
trace is the observable behaviour. -/
def UpdateAppPolicy (label user : String) (oldPrivileges newPrivileges : List String) :
    List AdminCall :=
  SetPolicies (UpdateAppPolicyRules label user oldPrivileges newPrivileges)

/-- The user-type enumeration security_manager_user_type of security-manager.h
(values enumerated by the switch in CynaraAdmin::UserInit; the default label of
that switch collapses any further value onto the same error path as NONE, ANY
and END). -/
inductive security_manager_user_type
  | SM_USER_TYPE_NONE
  | SM_USER_TYPE_SYSTEM
  | SM_USER_TYPE_ADMIN
  | SM_USER_TYPE_GUEST
  | SM_USER_TYPE_NORMAL
  | SM_USER_TYPE_ANY
  | SM_USER_TYPE_END
deriving DecidableEq

/-- Embedding of CynaraAdmin::UserInit (cynara.cpp, lines 343-375): the switch
selects the redirect target bucket or throws InvalidParam; on success exactly
one wildcard-client bucket-redirect rule for this uid is pushed and submitted
via SetPolicies.  uid_t is a 32-bit unsigned integer, modelled as a Nat holding
its value; the cast to unsigned int is the identity on it and std::to_string
renders its decimal digits, modelled by toString. -/
def UserInit (uid : Nat) (userType : security_manager_user_type) :
    Except CynaraException (List AdminCall) := do
  let bucket ← match userType with
    | .SM_USER_TYPE_SYSTEM => Except.ok Bucket.USER_TYPE_SYSTEM
    | .SM_USER_TYPE_ADMIN => Except.ok Bucket.USER_TYPE_ADMIN
    | .SM_USER_TYPE_GUEST => Except.ok Bucket.USER_TYPE_GUEST
    | .SM_USER_TYPE_NORMAL => Except.ok Bucket.USER_TYPE_NORMAL
    | _ => Except.error CynaraException.InvalidParam
  Except.ok (SetPolicies
    [CynaraAdminPolicy.mkGoToBucket CYNARA_ADMIN_WILDCARD (toString uid)
      CYNARA_ADMIN_WILDCARD (Buckets bucket) (Buckets Bucket.MAIN)])

/-- Modelled from the spec: the record-against-filter matching of
cynara_admin_list_policies, which is part of the external cynara service and
not in this repository.  Per the spec's listPolicies/listUsers description, the
ANY token matches every record value, any other filter value (including the
wildcard token itself) matches by equality. -/
def filterMatches (value filterValue : String) : Bool :=
  filterValue == CYNARA_ADMIN_ANY || value == filterValue

/-- Embedding of CynaraAdmin::ListPolicies (cynara.cpp, lines 410-432) over a
cynara policy store modelled as the list of its policy records: returns the
records of the named bucket matching the three filters. -/
def ListPolicies (store : List CynaraAdminPolicy)
    (bucketName client user privilege : String) : List CynaraAdminPolicy :=
  store.filter fun p =>
    p.bucket == bucketName && filterMatches p.client client &&
      filterMatches p.user user && filterMatches p.privilege privilege

/-- Result of std::stoul: a parsed unsigned long, or the exception it throws. -/
inductive StoulResult
  | ok (value : Nat)
  | invalidArgument
  | outOfRange
deriving DecidableEq

def ULONG_MAX : Nat := 2 ^ 64 - 1

/-- Model of std::stoul(s) with base 10 (C++ standard library): skip leading
whitespace, consume an optional sign, then a non-empty digit sequence (throw
std::invalid_argument if there is none); throw std::out_of_range if the value
exceeds ULONG_MAX; a minus sign negates in unsigned long arithmetic. -/
def stoul (s : String) : StoulResult :=
  let cs := s.data.dropWhile Char.isWhitespace
  let signed : Bool × List Char :=
    match cs with
    | '-' :: t => (true, t)
    | '+' :: t => (false, t)
    | _ => (false, cs)
  let digits := signed.2.takeWhile Char.isDigit
  if digits.isEmpty then .invalidArgument
  else
    let v := digits.foldl (fun a c => a * 10 + (c.toNat - 48)) 0
    if v > ULONG_MAX then .outOfRange
    else .ok (if signed.1 then (2 ^ 64 - v % 2 ^ 64) % 2 ^ 64 else v)

/-- A C++ standard-library exception that ListUsers does not catch. -/
inductive CppException
  | stdOutOfRange
deriving DecidableEq

def UINT32_MOD : Nat := 2 ^ 32

/-- The loop body of CynaraAdmin::ListUsers (cynara.cpp, lines 387-397): skip
the wildcard user token, parse the rest with std::stoul, catch only
std::invalid_argument (log and continue); std::out_of_range escapes uncaught;
a parsed value is pushed into a vector of 32-bit uid_t, truncating mod 2^32. -/
def ListUsersLoop : List CynaraAdminPolicy → Except CppException (List Nat)
  | [] => .ok []
  | r :: rs =>
      if r.user = CYNARA_ADMIN_WILDCARD then ListUsersLoop rs
      else
        match stoul r.user with
        | .invalidArgument => ListUsersLoop rs
        | .outOfRange => .error .stdOutOfRange
        | .ok v => (ListUsersLoop rs).map (fun l => v % UINT32_MOD :: l)

/-- Embedding of CynaraAdmin::ListUsers (cynara.cpp, lines 377-399): list the
MAIN-bucket records whose client and privilege are the wildcard token (user
filter is ANY), then run the parsing loop. -/
def ListUsers (store : List CynaraAdminPolicy) : Except CppException (List Nat) :=
  ListUsersLoop (ListPolicies store (Buckets .MAIN) CYNARA_ADMIN_WILDCARD
    CYNARA_ADMIN_ANY CYNARA_ADMIN_WILDCARD)

/-! ## Authorization-check client (Cynara) -/

/-- The causes with which cynara invokes a response callback
(cynara_async_call_cause of cynara-client-async.h). -/
inductive cynara_async_call_cause
  | ANSWER
  | CANCEL
  | FINISH
  | SERVICE_NOT_AVAILABLE
deriving DecidableEq

/-- The one-shot resolution a response callback gives to the pending check's
promise (std::promise of bool): either set_value of a bool, or set_exception. -/
inductive PromiseState
  | value (b : Bool)
  | exception (e : CynaraException)
deriving DecidableEq

/-- The C++ standard conversion from int to bool applied by
std::promise of bool :: set_value when handed an int: nonzero becomes true. -/
def intToBool (i : Int) : Bool := decide (i ≠ 0)

/-- Embedding of Cynara::responseCallback (cynara.cpp, lines 628-662): how the
pending check's promise is resolved for each callback cause.  The source passes
the int constant CYNARA_API_ACCESS_DENIED (and, for ANSWER, the int response)
to set_value on a promise of bool, so the stored bool is the int-to-bool
conversion of that int. -/
def responseCallback (cause : cynara_async_call_cause) (response : Int) : PromiseState :=
  match cause with
  | .ANSWER => .value (intToBool response)
  | .CANCEL => .value (intToBool CYNARA_API_ACCESS_DENIED)
  | .FINISH => .value (intToBool CYNARA_API_ACCESS_DENIED)
  | .SERVICE_NOT_AVAILABLE => .exception .ServiceNotAvailable

/-- The observable actions of one Cynara::check call. -/
inductive CheckAction
  | cacheLookup
  | createRequest
  | notifyWorker
deriving DecidableEq

/-- How one Cynara::check call ends on the caller's thread before any blocking
wait: it either returns (or throws) directly from the critical section, or
leaves the critical section to block on its private promise. -/
inductive CheckOutcome
  | returned (r : Except CynaraException Bool)
  | awaitPromise
deriving DecidableEq

structure CheckRun where
  actions : List CheckAction
  outcome : CheckOutcome
deriving DecidableEq

/-- Embedding of Cynara::check (cynara.cpp, lines 699-732) as a function of the
two external results it consumes: the cynara_async_check_cache return code and
the cynara_async_create_request return code (the latter only reached on cache
miss).  A non-miss cache code returns checkCynaraError of it at once; a miss
creates the request, wakes the worker, and blocks on the promise. -/
def check (cacheResult createResult : Int) : CheckRun :=
  if cacheResult ≠ CYNARA_API_CACHE_MISS then
    { actions := [.cacheLookup], outcome := .returned (checkCynaraError cacheResult) }
  else
    match checkCynaraError createResult with
    | .error e =>
        { actions := [.cacheLookup, .createRequest], outcome := .returned (.error e) }
    | .ok _ =>
        { actions := [.cacheLookup, .createRequest, .notifyWorker],
          outcome := .awaitPromise }

/-! ## Persistent privilege store (PrivilegeDb) -/

/-- Exception kinds of DB::SqlConnection visible in privilege_db.cpp:
SyntaxError and InternalError are caught by try_catch; any other subclass of
Exception::Base escapes it. -/
inductive SqlExceptionKind
  | SyntaxError
  | InternalError
  | OtherBase
deriving DecidableEq

/-- Exception kinds of PrivilegeDb::Exception.  InternalError and IOError are
the ones raised by privilege_db.cpp.  ConflictError is modelled from the spec:
the spec's error taxonomy names it (uniqueness violation on insert), and the
header declaring PrivilegeDb::Exception is not among the source files; it is
included so that claims about it are statable. -/
inductive PrivilegeDbExceptionKind
  | InternalError
  | IOError
  | ConflictError
deriving DecidableEq

/-- Outcome of a PrivilegeDb operation: normal return, a translated
PrivilegeDb::Exception, or an untranslated SqlConnection exception that
try_catch did not catch. -/
inductive DbOutcome (α : Type)
  | ok (a : α)
  | privilegeDbErr (e : PrivilegeDbExceptionKind)
  | uncaughtSqlErr (e : SqlExceptionKind)
deriving DecidableEq

/-- Embedding of try_catch (privilege_db.cpp, lines 41-55): SyntaxError and
InternalError of SqlConnection are both rethrown as
PrivilegeDb::Exception::InternalError; any other exception propagates
unchanged. -/
def try_catch {α : Type} (body : Except SqlExceptionKind α) : DbOutcome α :=
  match body with
  | .ok a => .ok a
  | .error .SyntaxError => .privilegeDbErr .InternalError
  | .error .InternalError => .privilegeDbErr .InternalError
  | .error e => .uncaughtSqlErr e

/-- State of the privilege database, as the rows of its two tables used by
privilege_db.cpp: (app_id, pkg_id) application rows and (app_id, privilege)
grant rows. -/
structure PrivilegeDbState where
  apps : List (String × String)
  appPrivileges : List (String × String)
deriving DecidableEq

/-- Outcome of one SQL statement execution against the external engine:
success, or an SqlConnection exception.  Queries cannot be run here, so each
operation takes the outcome of its statement as an explicit argument; the
success-path semantics of the statements is modelled from the spec (the query
text lives in privilege_db.h, which is not among the source files). -/
inductive SqlStep
  | success
  | sqlFail (e : SqlExceptionKind)
deriving DecidableEq

/-- Modelled from the spec: the EPkgIdExists query behind
PrivilegeDb::PkgIdExists (privilege_db.cpp, lines 97-112) steps a row iff some
application row carries this pkgId ("true iff any application is currently
associated with pkgId"). -/
def PkgIdExists (s : PrivilegeDbState) (pkgId : String) : Bool :=
  s.apps.any fun row => row.2 == pkgId

structure AddApplicationRun where
  outcome : DbOutcome Unit
  state : PrivilegeDbState
  pkgIdIsNew : Bool
deriving DecidableEq

/-- Embedding of PrivilegeDb::AddApplication (privilege_db.cpp, lines 114-135).
The out-parameter pkgIdIsNew enters holding the caller's previous value and is
assigned from the existence check before the insert statement runs; the insert
is then executed inside try_catch.  existsStep injects a failure of the
EPkgIdExists query (whose own try_catch throw propagates out before the
assignment); insertStep injects a failure of the EAddApplication statement.
The success-path row insertion is modelled from the spec ("inserts (appId,
pkgId)"). -/
def AddApplication (s : PrivilegeDbState) (appId pkgId : String)
    (pkgIdIsNew0 : Bool) (existsStep insertStep : SqlStep) : AddApplicationRun :=
  match existsStep with
  | .sqlFail e =>
      { outcome := try_catch (Except.error e), state := s, pkgIdIsNew := pkgIdIsNew0 }
  | .success =>
      let isNew := !(PkgIdExists s pkgId)
      match insertStep with
      | .sqlFail e =>
          { outcome := try_catch (Except.error e), state := s, pkgIdIsNew := isNew }
      | .success =>
          { outcome := .ok (), state := { s with apps := s.apps ++ [(appId, pkgId)] },
            pkgIdIsNew := isNew }

structure RemoveApplicationRun where
  outcome : DbOutcome Unit
  state : PrivilegeDbState
  pkgIdIsNoMore : Bool
deriving DecidableEq

/-- Embedding of PrivilegeDb::RemoveApplication (privilege_db.cpp, lines
137-158): inside try_catch, delete the (appId, pkgId) row, then assign the
out-parameter from the existence check after the deletion.  deleteStep injects
a failure of the ERemoveApplication statement (the out-parameter is then left
holding the caller's previous value).  The success-path row deletion is
modelled from the spec ("deletes the (appId, pkgId) row"). -/
def RemoveApplication (s : PrivilegeDbState) (appId pkgId : String)
    (pkgIdIsNoMore0 : Bool) (deleteStep : SqlStep) : RemoveApplicationRun :=
  match deleteStep with
  | .sqlFail e =>
      { outcome := try_catch (Except.error e), state := s,
        pkgIdIsNoMore := pkgIdIsNoMore0 }
  | .success =>
      let s2 : PrivilegeDbState :=
        { s with apps := s.apps.filter fun row => !(row.1 == appId && row.2 == pkgId) }
      { outcome := .ok (), state := s2, pkgIdIsNoMore := !(PkgIdExists s2 pkgId) }

structure RemoveAppPrivilegesRun where
  outcome : DbOutcome Unit
  state : PrivilegeDbState
deriving DecidableEq

/-- Embedding of PrivilegeDb::RemoveAppPrivileges (privilege_db.cpp, lines
177-186): inside try_catch, a single unconditional delete of every grant row of
appId (the statement is stepped once whether or not any grant exists).  The
success-path semantics of the ERemoveAppPrivileges statement is modelled from
the spec ("deletes all privilege grants for appId unconditionally"). -/
def RemoveAppPrivileges (s : PrivilegeDbState) (appId : String)
    (deleteStep : SqlStep) : RemoveAppPrivilegesRun :=
  match deleteStep with
  | .sqlFail e => { outcome := try_catch (Except.error e), state := s }
  | .success =>
      { outcome := .ok (),
        state := { s with appPrivileges := s.appPrivileges.filter fun row => !(row.1 == appId) } }

/-! ## Order facts about the embedded string comparison -/

theorem compareChars_eq_iff : ∀ (as bs : List Char), compareChars as bs = .eq ↔ as = bs
  | [], [] => by simp [compareChars]
  | [], _ :: _ => by simp [compareChars]
  | _ :: _, [] => by simp [compareChars]
  | a :: as, b :: bs => by
      unfold compareChars
      rcases lt_trichotomy a b with h | h | h
      · simp [h, ne_of_lt h]
      · subst h
        simp [lt_irrefl, compareChars_eq_iff as bs]
      · simp [h, asymm h, (ne_of_lt h).symm]

theorem strCompare_eq_iff (a b : String) : strCompare a b = .eq ↔ a = b := by
  unfold strCompare
  rw [compareChars_eq_iff]
  constructor
  · intro h
    cases a; cases b
    simp_all
  · intro h
    rw [h]

theorem compareChars_gt_iff : ∀ (as bs : List Char),
    compareChars as bs = .gt ↔ compareChars bs as = .lt
  | [], [] => by simp [compareChars]
  | [], _ :: _ => by simp [compareChars]
  | _ :: _, [] => by simp [compareChars]
  | a :: as, b :: bs => by
      unfold compareChars
      rcases lt_trichotomy a b with h | h | h
      · simp [h, asymm h]
      · subst h
        simp [lt_irrefl, compareChars_gt_iff as bs]
      · simp [h, asymm h]

theorem compareChars_lt_trans : ∀ (as bs cs : List Char),
    compareChars as bs = .lt → compareChars bs cs = .lt → compareChars as cs = .lt
  | [], [], _ => by intro h1 _; simp [compareChars] at h1
  | [], _ :: _, [] => by intro _ h2; simp [compareChars] at h2
  | [], _ :: _, _ :: _ => by intros; simp [compareChars]
  | _ :: _, [], _ => by intro h1 _; simp [compareChars] at h1
  | _ :: _, _ :: _, [] => by intro _ h2; simp [compareChars] at h2
  | a :: as, b :: bs, c :: cs => by
      intro h1 h2
      unfold compareChars at h1 h2 ⊢
      by_cases hab : a < b
      · by_cases hbc : b < c
        · simp [lt_trans hab hbc]
        · by_cases hcb : c < b
          · simp [asymm hcb, hcb] at h2
          · have hbceq : b = c := le_antisymm (not_lt.mp hcb) (not_lt.mp hbc)
            subst hbceq
            simp [hab]
      · by_cases hba : b < a
        · simp [hab, hba] at h1
        · have habeq : a = b := le_antisymm (not_lt.mp hba) (not_lt.mp hab)
          subst habeq
          simp [lt_irrefl] at h1
          by_cases hac : a < c
          · simp [hac]
          · by_cases hca : c < a
            · simp [hac, hca] at h2
            · have haceq : a = c := le_antisymm (not_lt.mp hca) (not_lt.mp hac)
              subst haceq
              simp [lt_irrefl] at h2 ⊢
              exact compareChars_lt_trans as bs cs h1 h2

theorem strCompare_self (a : String) : strCompare a a = .eq :=
  (strCompare_eq_iff a a).mpr rfl

theorem strCompare_gt_iff (a b : String) : strCompare a b = .gt ↔ strLt b a :=
  compareChars_gt_iff a.data b.data

theorem strLt_trans {a b c : String} (h1 : strLt a b) (h2 : strLt b c) : strLt a c :=
  compareChars_lt_trans a.data b.data c.data h1 h2

theorem strLt_irrefl (a : String) : ¬ strLt a a := by
  unfold strLt
  simp [strCompare_self]

theorem strLt_ne {a b : String} (h : strLt a b) : a ≠ b :=
  fun he => strLt_irrefl a (he ▸ h)

theorem not_mem_of_strLt_head {x h : String} {t : List String} (hx : strLt x h)
    (hs : List.Sorted strLt (h :: t)) : x ∉ h :: t := by
  intro hmem
  rcases List.mem_cons.mp hmem with rfl | hmem
  · exact strLt_irrefl x hx
  · exact strLt_irrefl x (strLt_trans hx ((List.sorted_cons.mp hs).1 x hmem))

theorem head_not_mem_tail {h : String} {t : List String} (hs : List.Sorted strLt (h :: t)) :
    h ∉ t :=
  fun hmem => strLt_irrefl h ((List.sorted_cons.mp hs).1 h hmem)

/-! ## Claim C1 -/

/-- Claim C1 (code bug witness): when the response callback is invoked with
cause CANCEL or FINISH, the pending check's promise IS resolved exactly once
with a boolean — but that boolean is true (access granted), not the claimed
false: the source passes the int CYNARA_API_ACCESS_DENIED = 1 to set_value on a
std::promise of bool, and the C++ int-to-bool conversion of that nonzero
constant stores true.  The callback never leaves the ANSWER-path promise
unresolved and never resolves it with an exception for these causes, but it
fails open, contradicting the claimed fail-closed resolution to false. -/
theorem responseCallback_cancel_finish_resolve_true :
    (∀ response : Int, responseCallback .CANCEL response = .value true)
  ∧ (∀ response : Int, responseCallback .FINISH response = .value true)
  ∧ responseCallback .CANCEL 0 ≠ .value false
  ∧ responseCallback .FINISH 0 ≠ .value false
  ∧ (∀ response : Int, ∀ e : CynaraException,
      responseCallback .CANCEL response ≠ .exception e)
  ∧ (∀ response : Int, ∀ e : CynaraException,
      responseCallback .FINISH response ≠ .exception e) := by
  refine ⟨?_, ?_, by decide, by decide, ?_, ?_⟩
  · intro r; rfl
  · intro r; rfl
  · intro r e; simp [responseCallback]
  · intro r e; simp [responseCallback]

/-! ## Claim C3 -/

theorem try_catch_never_conflict {α : Type} (body : Except SqlExceptionKind α) :
    try_catch body ≠ .privilegeDbErr .ConflictError := by
  cases body with
  | ok a => simp [try_catch]
  | error e => cases e <;> simp [try_catch]

/-- Claim C3 counterexample: at the concrete duplicate insert of (app1, pkgA)
into a store already holding that row, with the engine signalling the
constraint violation as a SqlConnection internal error, AddApplication fails
with PrivilegeDb InternalError — not with the claimed ConflictError. -/
theorem addApplication_duplicate_not_conflict :
    ((AddApplication ⟨[("app1", "pkgA")], []⟩ "app1" "pkgA" false .success
        (.sqlFail .InternalError)).outcome = .privilegeDbErr .InternalError)
  ∧ ¬ ((AddApplication ⟨[("app1", "pkgA")], []⟩ "app1" "pkgA" false .success
        (.sqlFail .InternalError)).outcome = .privilegeDbErr .ConflictError) := by
  decide

/-- Claim C3 (amended): a uniqueness-constraint violation surfacing as a
SqlConnection internal (or syntax) error makes addApplication fail with
InternalError; no execution of addApplication ever fails with ConflictError,
because try_catch translates both caught SqlConnection kinds to InternalError
and lets anything else escape untranslated. -/
theorem addApplication_conflict_never_raised :
    ∀ (s : PrivilegeDbState) (appId pkgId : String) (out0 : Bool),
      ((AddApplication s appId pkgId out0 .success (.sqlFail .InternalError)).outcome
        = .privilegeDbErr .InternalError)
    ∧ ((AddApplication s appId pkgId out0 .success (.sqlFail .SyntaxError)).outcome
        = .privilegeDbErr .InternalError)
    ∧ (∀ existsStep insertStep : SqlStep,
        (AddApplication s appId pkgId out0 existsStep insertStep).outcome
          ≠ .privilegeDbErr .ConflictError) := by
  intro s appId pkgId out0
  refine ⟨rfl, rfl, ?_⟩
  intro existsStep insertStep
  cases existsStep with
  | sqlFail e => exact try_catch_never_conflict _
  | success =>
      cases insertStep with
      | sqlFail e => exact try_catch_never_conflict _
      | success => simp [AddApplication]

/-! ## Claim C5 -/

/-- Claim C5: userInit for ADMIN, SYSTEM, GUEST and NORMAL submits exactly one
rule, in bucket MAIN, with wildcard client, the decimal uid string as user,
wildcard privilege, and a bucket-redirect result targeting the matching
USER_TYPE bucket; for NONE, ANY and END (the values the source's default label
collapses onto the same path) it raises InvalidParam and performs no admin
call. -/
theorem userInit_bucket_rules :
    ∀ uid : Nat,
      (UserInit uid .SM_USER_TYPE_ADMIN = .ok [.setPolicies
        [CynaraAdminPolicy.mkGoToBucket CYNARA_ADMIN_WILDCARD (toString uid)
          CYNARA_ADMIN_WILDCARD (Buckets .USER_TYPE_ADMIN) (Buckets .MAIN)]])
    ∧ (UserInit uid .SM_USER_TYPE_SYSTEM = .ok [.setPolicies
        [CynaraAdminPolicy.mkGoToBucket CYNARA_ADMIN_WILDCARD (toString uid)
          CYNARA_ADMIN_WILDCARD (Buckets .USER_TYPE_SYSTEM) (Buckets .MAIN)]])
    ∧ (UserInit uid .SM_USER_TYPE_GUEST = .ok [.setPolicies
        [CynaraAdminPolicy.mkGoToBucket CYNARA_ADMIN_WILDCARD (toString uid)
          CYNARA_ADMIN_WILDCARD (Buckets .USER_TYPE_GUEST) (Buckets .MAIN)]])
    ∧ (UserInit uid .SM_USER_TYPE_NORMAL = .ok [.setPolicies
        [CynaraAdminPolicy.mkGoToBucket CYNARA_ADMIN_WILDCARD (toString uid)
          CYNARA_ADMIN_WILDCARD (Buckets .USER_TYPE_NORMAL) (Buckets .MAIN)]])
    ∧ UserInit uid .SM_USER_TYPE_NONE = .error .InvalidParam
    ∧ UserInit uid .SM_USER_TYPE_ANY = .error .InvalidParam
    ∧ UserInit uid .SM_USER_TYPE_END = .error .InvalidParam
    ∧ ((CynaraAdminPolicy.mkGoToBucket CYNARA_ADMIN_WILDCARD (toString uid)
        CYNARA_ADMIN_WILDCARD (Buckets .USER_TYPE_ADMIN) (Buckets .MAIN)).bucket
          = "MAIN")
    ∧ ((CynaraAdminPolicy.mkGoToBucket CYNARA_ADMIN_WILDCARD (toString uid)
        CYNARA_ADMIN_WILDCARD (Buckets .USER_TYPE_ADMIN) (Buckets .MAIN)).client
          = CYNARA_ADMIN_WILDCARD)
    ∧ ((CynaraAdminPolicy.mkGoToBucket CYNARA_ADMIN_WILDCARD (toString uid)
        CYNARA_ADMIN_WILDCARD (Buckets .USER_TYPE_ADMIN) (Buckets .MAIN)).user
          = toString uid)
    ∧ ((CynaraAdminPolicy.mkGoToBucket CYNARA_ADMIN_WILDCARD (toString uid)
        CYNARA_ADMIN_WILDCARD (Buckets .USER_TYPE_ADMIN) (Buckets .MAIN)).privilege
          = CYNARA_ADMIN_WILDCARD)
    ∧ ((CynaraAdminPolicy.mkGoToBucket CYNARA_ADMIN_WILDCARD (toString uid)
        CYNARA_ADMIN_WILDCARD (Buckets .USER_TYPE_ADMIN) (Buckets .MAIN)).result
          = CYNARA_ADMIN_BUCKET)
    ∧ ((CynaraAdminPolicy.mkGoToBucket CYNARA_ADMIN_WILDCARD (toString uid)
        CYNARA_ADMIN_WILDCARD (Buckets .USER_TYPE_ADMIN) (Buckets .MAIN)).result_extra
          = some "USER_TYPE_ADMIN") := by
  intro uid
  exact ⟨rfl, rfl, rfl, rfl, rfl, rfl, rfl, rfl, rfl, rfl, rfl, rfl, rfl⟩

/-! ## Claim C7 -/

/-- Claim C7: removeApplicationPrivileges is idempotent — running it twice in a
row from any store state ends in the same state and outcome as running it once
— and its success path returns normally whether or not appId had any grants
(the deletion is unconditional; no error arises from an empty grant set). -/
theorem removeAppPrivileges_idempotent :
    ∀ (s : PrivilegeDbState) (appId : String),
      (RemoveAppPrivileges (RemoveAppPrivileges s appId .success).state appId .success
        = RemoveAppPrivileges s appId .success)
    ∧ ((RemoveAppPrivileges s appId .success).outcome = DbOutcome.ok ())
    ∧ ((RemoveAppPrivileges s appId .success).state.apps = s.apps)
    ∧ ((RemoveAppPrivileges s appId .success).state.appPrivileges
        = s.appPrivileges.filter fun row => !(row.1 == appId)) := by
  intro s appId
  refine ⟨?_, rfl, rfl, rfl⟩
  simp [RemoveAppPrivileges, List.filter_filter]

/-! ## Claim C9 -/

/-- Claim C9: setPolicies with an empty batch performs no admin-store call and
returns normally; with a non-empty batch it submits the entire batch in a
single cynara_admin_set_policies call. -/
theorem setPolicies_empty_noop :
    SetPolicies [] = []
  ∧ (∀ policies : List CynaraAdminPolicy, policies ≠ [] →
      SetPolicies policies = [AdminCall.setPolicies policies]) := by
  refine ⟨rfl, fun policies h => ?_⟩
  cases policies with
  | nil => exact absurd rfl h
  | cons p ps => rfl

/-- Witness for claim C9 at a concrete non-empty batch. -/
theorem setPolicies_empty_noop_witness :
    ([CynaraAdminPolicy.mkOperation "client" "user" "priv" CYNARA_ADMIN_ALLOW
        "MANIFESTS"] ≠ ([] : List CynaraAdminPolicy))
  ∧ SetPolicies
      [CynaraAdminPolicy.mkOperation "client" "user" "priv" CYNARA_ADMIN_ALLOW
        "MANIFESTS"]
      = [AdminCall.setPolicies
        [CynaraAdminPolicy.mkOperation "client" "user" "priv" CYNARA_ADMIN_ALLOW
          "MANIFESTS"]] :=
  ⟨by simp, setPolicies_empty_noop.2 _ (by simp)⟩

/-! ## Claim C10 -/

/-- Claim C10: addApplication assigns its out-parameter from the pre-insert
existence check before the insert statement runs, so on every call whose insert
step fails the out-parameter already holds the pre-insert existence result
(demonstrated concretely: entering with true, it leaves holding false after a
failed insert into an existing package), and is not left untouched. -/
theorem addApplication_outparam_before_insert :
    ∀ (s : PrivilegeDbState) (appId pkgId : String) (out0 : Bool)
      (e : SqlExceptionKind),
      ((AddApplication s appId pkgId out0 .success (.sqlFail e)).pkgIdIsNew
        = !(PkgIdExists s pkgId))
    ∧ ((AddApplication s appId pkgId out0 .success (.sqlFail e)).outcome ≠ .ok ())
    ∧ ((AddApplication ⟨[("other", "pkgA")], []⟩ "app1" "pkgA" true .success
        (.sqlFail .InternalError)).pkgIdIsNew = false) := by
  intro s appId pkgId out0 e
  refine ⟨rfl, ?_, by decide⟩
  cases e <;> simp [AddApplication, try_catch]

/-! ## Claim C4 -/

/-- Claim C4: on the success path, addApplication reports isNewPackage = true
exactly when no application row carried pkgId before the insert, and
removeApplication reports isPackageNowEmpty = true exactly when every
application row carrying pkgId was the deleted (appId, pkgId) row — i.e. no
application references pkgId after the deletion; and the concrete lifecycle on
an empty store (add app1 then app2 to pkgA, then remove app1 then app2) yields
true, false, false, true. -/
theorem addRemoveApplication_package_lifecycle :
    ∀ (s : PrivilegeDbState) (appId pkgId : String) (out0 outR : Bool),
      ((AddApplication s appId pkgId out0 .success .success).pkgIdIsNew = true
        ↔ ∀ row ∈ s.apps, row.2 ≠ pkgId)
    ∧ ((RemoveApplication s appId pkgId outR .success).pkgIdIsNoMore = true
        ↔ ∀ row ∈ s.apps, row.2 = pkgId → row.1 = appId)
    ∧ ((AddApplication ⟨[], []⟩ "app1" "pkgA" false .success .success).pkgIdIsNew
        = true)
    ∧ ((AddApplication
        (AddApplication ⟨[], []⟩ "app1" "pkgA" false .success .success).state
        "app2" "pkgA" false .success .success).pkgIdIsNew = false)
    ∧ ((RemoveApplication
        (AddApplication
          (AddApplication ⟨[], []⟩ "app1" "pkgA" false .success .success).state
          "app2" "pkgA" false .success .success).state
        "app1" "pkgA" false .success).pkgIdIsNoMore = false)
    ∧ ((RemoveApplication
        (RemoveApplication
          (AddApplication
            (AddApplication ⟨[], []⟩ "app1" "pkgA" false .success .success).state
            "app2" "pkgA" false .success .success).state
          "app1" "pkgA" false .success).state
        "app2" "pkgA" false .success).pkgIdIsNoMore = true) := by
  intro s appId pkgId out0 outR
  refine ⟨?_, ?_, by decide, by decide, by decide, by decide⟩
  · simp [AddApplication, PkgIdExists]
  · simp only [RemoveApplication, PkgIdExists, Bool.not_eq_true', List.any_eq_false,
      List.mem_filter, beq_iff_eq, Bool.not_eq_true, Bool.and_eq_false_iff]
    constructor
    · intro H row hrow hpkg
      by_contra hne
      have := H row ⟨hrow, by simp [hne]⟩
      simp [hpkg] at this
    · intro H row hmem
      rcases hmem with ⟨hrow, hcond⟩
      intro hpkg
      have happ := H row hrow hpkg
      simp [happ, hpkg] at hcond

/-! ## Claim C6 -/

theorem checkCynaraError_ok_imp (r : Int) (b : Bool) (h : checkCynaraError r = .ok b) :
    r = CYNARA_API_SUCCESS ∨ r = CYNARA_API_ACCESS_ALLOWED ∨ r = CYNARA_API_ACCESS_DENIED := by
  unfold checkCynaraError at h
  by_cases h1 : r = CYNARA_API_SUCCESS
  · exact Or.inl h1
  by_cases h2 : r = CYNARA_API_ACCESS_ALLOWED
  · exact Or.inr (Or.inl h2)
  by_cases h3 : r = CYNARA_API_ACCESS_DENIED
  · exact Or.inr (Or.inr h3)
  rw [if_neg h1, if_neg h2, if_neg h3] at h
  exfalso
  split_ifs at h

theorem checkCynaraError_of_success : checkCynaraError CYNARA_API_SUCCESS = .ok true := by
  decide

theorem checkCynaraError_of_allowed : checkCynaraError CYNARA_API_ACCESS_ALLOWED = .ok true := by
  decide

theorem checkCynaraError_of_denied : checkCynaraError CYNARA_API_ACCESS_DENIED = .ok false := by
  decide

/-- Claim C6: a check call whose cache lookup returns anything other than the
cache-miss sentinel returns immediately with the classification of that code —
true for SUCCESS or ACCESS_ALLOWED, false for ACCESS_DENIED, a thrown
classified error for anything else — and performs neither the request creation
nor the worker wake-up; the cache-miss sentinel itself is not treated as an
error but triggers the asynchronous path. -/
theorem check_cache_hit_short_circuit (cacheResult createResult : Int)
    (hmiss : cacheResult ≠ CYNARA_API_CACHE_MISS) :
    (check cacheResult createResult
      = { actions := [.cacheLookup], outcome := .returned (checkCynaraError cacheResult) })
  ∧ (cacheResult = CYNARA_API_SUCCESS ∨ cacheResult = CYNARA_API_ACCESS_ALLOWED →
      (check cacheResult createResult).outcome = .returned (.ok true))
  ∧ (cacheResult = CYNARA_API_ACCESS_DENIED →
      (check cacheResult createResult).outcome = .returned (.ok false))
  ∧ (cacheResult ≠ CYNARA_API_SUCCESS → cacheResult ≠ CYNARA_API_ACCESS_ALLOWED →
      cacheResult ≠ CYNARA_API_ACCESS_DENIED →
      ∃ e : CynaraException,
        (check cacheResult createResult).outcome = .returned (.error e))
  ∧ CheckAction.createRequest ∉ (check cacheResult createResult).actions
  ∧ CheckAction.notifyWorker ∉ (check cacheResult createResult).actions
  ∧ CheckAction.createRequest ∈ (check CYNARA_API_CACHE_MISS createResult).actions := by
  have hc : check cacheResult createResult
      = { actions := [.cacheLookup],
          outcome := .returned (checkCynaraError cacheResult) } := by
    unfold check
    rw [if_pos hmiss]
  refine ⟨hc, ?_, ?_, ?_, ?_, ?_, ?_⟩
  · rintro (rfl | rfl) <;> rw [hc]
    · rw [checkCynaraError_of_success]
    · rw [checkCynaraError_of_allowed]
  · rintro rfl
    rw [hc, checkCynaraError_of_denied]
  · intro h1 h2 h3
    cases hval : checkCynaraError cacheResult with
    | ok b =>
        rcases checkCynaraError_ok_imp cacheResult b hval with hr | hr | hr
        · exact absurd hr h1
        · exact absurd hr h2
        · exact absurd hr h3
    | error e =>
        refine ⟨e, ?_⟩
        rw [hc, hval]
  · rw [hc]; simp
  · rw [hc]; simp
  · cases hval : checkCynaraError createResult <;> simp [check, hval]

/-- Witness for claim C6: a concrete cache hit (ACCESS_ALLOWED) returns true
with no async action. -/
theorem check_cache_hit_short_circuit_witness :
    ((2 : Int) ≠ CYNARA_API_CACHE_MISS)
  ∧ check 2 0 = CheckRun.mk [CheckAction.cacheLookup] (.returned (.ok true)) := by
  refine ⟨by decide, ?_⟩
  rw [(check_cache_hit_short_circuit 2 0 (by decide)).1]
  decide

/-! ## Claim C2 -/

theorem deleteRule_eq_iff (label user p q : String) :
    deleteRule label user p = deleteRule label user q ↔ p = q := by
  simp [deleteRule, CynaraAdminPolicy.mkOperation, CynaraAdminPolicy.mk.injEq]

theorem allowRule_eq_iff (label user p q : String) :
    allowRule label user p = allowRule label user q ↔ p = q := by
  simp [allowRule, CynaraAdminPolicy.mkOperation, CynaraAdminPolicy.mk.injEq]

theorem deleteRule_ne_allowRule (label user p q : String) :
    deleteRule label user p ≠ allowRule label user q := by
  simp [deleteRule, allowRule, CynaraAdminPolicy.mkOperation, CynaraAdminPolicy.mk.injEq,
    CYNARA_ADMIN_DELETE, CYNARA_ADMIN_ALLOW]

theorem count_deleteRule_updateRules (label user : String) :
    ∀ (oldP newP : List String), List.Sorted strLt oldP → List.Sorted strLt newP →
      ∀ p : String,
        (UpdateAppPolicyRules label user oldP newP).count (deleteRule label user p)
          = if p ∈ oldP ∧ p ∉ newP then 1 else 0 := by
  intro oldP newP
  induction oldP, newP using UpdateAppPolicyRules.induct label user with
  | case1 o os n ns heq ih =>
      intro hold hnew p
      have hon : o = n := (strCompare_eq_iff o n).mp heq
      subst hon
      simp only [UpdateAppPolicyRules, heq]
      rw [ih (List.sorted_cons.mp hold).2 (List.sorted_cons.mp hnew).2 p]
      by_cases hpo : p = o
      · subst hpo
        have hnotos : p ∉ os := head_not_mem_tail hold
        simp [hnotos]
      · simp [List.mem_cons, hpo]
  | case2 o os n ns heq ih =>
      intro hold hnew p
      have holt : strLt o n := heq
      simp only [UpdateAppPolicyRules, heq]
      rw [List.count_cons, ih (List.sorted_cons.mp hold).2 hnew p]
      by_cases hpo : p = o
      · subst hpo
        have hnotos : p ∉ os := head_not_mem_tail hold
        have hnotnew : p ∉ n :: ns := not_mem_of_strLt_head holt hnew
        simp [hnotos, hnotnew]
      · have hbne : ¬ (deleteRule label user o == deleteRule label user p) = true := by
          simp [deleteRule_eq_iff]
          exact fun h => hpo h.symm
        rw [if_neg hbne]
        simp [List.mem_cons, hpo]
  | case3 o os n ns heq ih =>
      intro hold hnew p
      have hnlt : strLt n o := (strCompare_gt_iff o n).mp heq
      simp only [UpdateAppPolicyRules, heq]
      rw [List.count_cons, ih hold (List.sorted_cons.mp hnew).2 p]
      have hbne : ¬ (allowRule label user n == deleteRule label user p) = true := by
        simp
        exact (deleteRule_ne_allowRule label user p n).symm
      rw [if_neg hbne]
      have hnnotold : n ∉ o :: os := not_mem_of_strLt_head hnlt hold
      by_cases hpn : p = n
      · subst hpn
        simp [hnnotold]
      · simp [List.mem_cons, hpn]
  | case4 o os ih =>
      intro hold _ p
      simp only [UpdateAppPolicyRules]
      rw [List.count_cons, ih (List.sorted_cons.mp hold).2 List.sorted_nil p]
      by_cases hpo : p = o
      · subst hpo
        have hnotos : p ∉ os := head_not_mem_tail hold
        simp [hnotos]
      · have hbne : ¬ (deleteRule label user o == deleteRule label user p) = true := by
          simp [deleteRule_eq_iff]
          exact fun h => hpo h.symm
        rw [if_neg hbne]
        simp [List.mem_cons, hpo]
  | case5 n ns ih =>
      intro _ hnew p
      simp only [UpdateAppPolicyRules]
      rw [List.count_cons, ih List.sorted_nil (List.sorted_cons.mp hnew).2 p]
      have hbne : ¬ (allowRule label user n == deleteRule label user p) = true := by
        simp
        exact (deleteRule_ne_allowRule label user p n).symm
      rw [if_neg hbne]
      simp
  | case6 =>
      intro _ _ p
      simp [UpdateAppPolicyRules]

theorem count_allowRule_updateRules (label user : String) :
    ∀ (oldP newP : List String), List.Sorted strLt oldP → List.Sorted strLt newP →
      ∀ p : String,
        (UpdateAppPolicyRules label user oldP newP).count (allowRule label user p)
          = if p ∈ newP ∧ p ∉ oldP then 1 else 0 := by
  intro oldP newP
  induction oldP, newP using UpdateAppPolicyRules.induct label user with
  | case1 o os n ns heq ih =>
      intro hold hnew p
      have hon : o = n := (strCompare_eq_iff o n).mp heq
      subst hon
      simp only [UpdateAppPolicyRules, heq]
      rw [ih (List.sorted_cons.mp hold).2 (List.sorted_cons.mp hnew).2 p]
      by_cases hpo : p = o
      · subst hpo
        have hnotns : p ∉ ns := head_not_mem_tail hnew
        simp [hnotns]
      · simp [List.mem_cons, hpo]
  | case2 o os n ns heq ih =>
      intro hold hnew p
      have holt : strLt o n := heq
      simp only [UpdateAppPolicyRules, heq]
      rw [List.count_cons, ih (List.sorted_cons.mp hold).2 hnew p]
      have hbne : ¬ (deleteRule label user o == allowRule label user p) = true := by
        simp
        exact deleteRule_ne_allowRule label user o p
      rw [if_neg hbne]
      by_cases hpo : p = o
      · subst hpo
        have hnotnew : p ∉ n :: ns := not_mem_of_strLt_head holt hnew
        simp [hnotnew]
      · simp [List.mem_cons, hpo]
  | case3 o os n ns heq ih =>
      intro hold hnew p
      have hnlt : strLt n o := (strCompare_gt_iff o n).mp heq
      simp only [UpdateAppPolicyRules, heq]
      rw [List.count_cons, ih hold (List.sorted_cons.mp hnew).2 p]
      by_cases hpn : p = n
      · subst hpn
        have hnotns : p ∉ ns := head_not_mem_tail hnew
        have hnotold : p ∉ o :: os := not_mem_of_strLt_head hnlt hold
        simp [hnotns, hnotold]
      · have hbne : ¬ (allowRule label user n == allowRule label user p) = true := by
          simp [allowRule_eq_iff]
          exact fun h => hpn h.symm
        rw [if_neg hbne]
        simp [List.mem_cons, hpn]
  | case4 o os ih =>
      intro hold _ p
      simp only [UpdateAppPolicyRules]
      rw [List.count_cons, ih (List.sorted_cons.mp hold).2 List.sorted_nil p]
      have hbne : ¬ (deleteRule label user o == allowRule label user p) = true := by
        simp
        exact deleteRule_ne_allowRule label user o p
      rw [if_neg hbne]
      simp
  | case5 n ns ih =>
      intro _ hnew p
      simp only [UpdateAppPolicyRules]
      rw [List.count_cons, ih List.sorted_nil (List.sorted_cons.mp hnew).2 p]
      by_cases hpn : p = n
      · subst hpn
        have hnotns : p ∉ ns := head_not_mem_tail hnew
        simp [hnotns]
      · have hbne : ¬ (allowRule label user n == allowRule label user p) = true := by
          simp [allowRule_eq_iff]
          exact fun h => hpn h.symm
        rw [if_neg hbne]
        simp [List.mem_cons, hpn]
  | case6 =>
      intro _ _ p
      simp [UpdateAppPolicyRules]

theorem updateRules_shape (label user : String) :
    ∀ (oldP newP : List String) (r : CynaraAdminPolicy),
      r ∈ UpdateAppPolicyRules label user oldP newP →
      (∃ p, p ∈ oldP ∧ r = deleteRule label user p)
      ∨ (∃ p, p ∈ newP ∧ r = allowRule label user p) := by
  intro oldP newP
  induction oldP, newP using UpdateAppPolicyRules.induct label user with
  | case1 o os n ns heq ih =>
      intro r hr
      simp only [UpdateAppPolicyRules, heq] at hr
      rcases ih r hr with ⟨p, hp, hre⟩ | ⟨p, hp, hre⟩
      · exact Or.inl ⟨p, List.mem_cons_of_mem _ hp, hre⟩
      · exact Or.inr ⟨p, List.mem_cons_of_mem _ hp, hre⟩
  | case2 o os n ns heq ih =>
      intro r hr
      simp only [UpdateAppPolicyRules, heq] at hr
      rcases List.mem_cons.mp hr with hre | hr2
      · exact Or.inl ⟨o, List.mem_cons_self _ _, hre⟩
      · rcases ih r hr2 with ⟨p, hp, hre⟩ | ⟨p, hp, hre⟩
        · exact Or.inl ⟨p, List.mem_cons_of_mem _ hp, hre⟩
        · exact Or.inr ⟨p, hp, hre⟩
  | case3 o os n ns heq ih =>
      intro r hr
      simp only [UpdateAppPolicyRules, heq] at hr
      rcases List.mem_cons.mp hr with hre | hr2
      · exact Or.inr ⟨n, List.mem_cons_self _ _, hre⟩
      · rcases ih r hr2 with ⟨p, hp, hre⟩ | ⟨p, hp, hre⟩
        · exact Or.inl ⟨p, hp, hre⟩
        · exact Or.inr ⟨p, List.mem_cons_of_mem _ hp, hre⟩
  | case4 o os ih =>
      intro r hr
      simp only [UpdateAppPolicyRules] at hr
      rcases List.mem_cons.mp hr with hre | hr2
      · exact Or.inl ⟨o, List.mem_cons_self _ _, hre⟩
      · rcases ih r hr2 with ⟨p, hp, hre⟩ | ⟨p, hp, hre⟩
        · exact Or.inl ⟨p, List.mem_cons_of_mem _ hp, hre⟩
        · exact Or.inr ⟨p, hp, hre⟩
  | case5 n ns ih =>
      intro r hr
      simp only [UpdateAppPolicyRules] at hr
      rcases List.mem_cons.mp hr with hre | hr2
      · exact Or.inr ⟨n, List.mem_cons_self _ _, hre⟩
      · rcases ih r hr2 with ⟨p, hp, hre⟩ | ⟨p, hp, hre⟩
        · exact Or.inl ⟨p, hp, hre⟩
        · exact Or.inr ⟨p, List.mem_cons_of_mem _ hp, hre⟩
  | case6 =>
      intro r hr
      simp [UpdateAppPolicyRules] at hr

/-- Claim C2: for sorted duplicate-free privilege sequences, updateApplicationPolicy
emits, in bucket MANIFESTS, exactly one Delete rule per privilege in old but not in
new, exactly one Allow rule per privilege in new but not in old, and no rule of any
other form; in particular for old = [a, b, c], new = [b, c, d] (any label and user)
it emits exactly Delete(a) and Allow(d), and the whole batch is submitted through
one setPolicies call. -/
theorem updateAppPolicy_diff_correct (label user : String) (oldP newP : List String)
    (hold : List.Sorted strLt oldP) (hnew : List.Sorted strLt newP) :
    (∀ p : String,
      (UpdateAppPolicyRules label user oldP newP).count (deleteRule label user p)
        = if p ∈ oldP ∧ p ∉ newP then 1 else 0)
  ∧ (∀ p : String,
      (UpdateAppPolicyRules label user oldP newP).count (allowRule label user p)
        = if p ∈ newP ∧ p ∉ oldP then 1 else 0)
  ∧ (∀ r ∈ UpdateAppPolicyRules label user oldP newP,
      r.bucket = Buckets .MANIFESTS
      ∧ ((∃ p, p ∈ oldP ∧ p ∉ newP ∧ r = deleteRule label user p)
        ∨ (∃ p, p ∈ newP ∧ p ∉ oldP ∧ r = allowRule label user p)))
  ∧ (UpdateAppPolicy label user oldP newP
      = SetPolicies (UpdateAppPolicyRules label user oldP newP))
  ∧ (UpdateAppPolicyRules label user ["a", "b", "c"] ["b", "c", "d"]
      = [deleteRule label user "a", allowRule label user "d"])
  ∧ (UpdateAppPolicy label user ["a", "b", "c"] ["b", "c", "d"]
      = [AdminCall.setPolicies
          [deleteRule label user "a", allowRule label user "d"]]) := by
  have hdel := count_deleteRule_updateRules label user oldP newP hold hnew
  have hallow := count_allowRule_updateRules label user oldP newP hold hnew
  have hinst : UpdateAppPolicyRules label user ["a", "b", "c"] ["b", "c", "d"]
      = [deleteRule label user "a", allowRule label user "d"] := by
    have c1 : strCompare "a" "b" = .lt := by decide
    have c2 : strCompare "b" "b" = .eq := by decide
    have c3 : strCompare "c" "c" = .eq := by decide
    simp [UpdateAppPolicyRules, c1, c2, c3]
  refine ⟨hdel, hallow, ?_, rfl, hinst, ?_⟩
  · intro r hr
    refine ⟨?_, ?_⟩
    · rcases updateRules_shape label user oldP newP r hr with ⟨p, _, hre⟩ | ⟨p, _, hre⟩
      · rw [hre]; rfl
      · rw [hre]; rfl
    · rcases updateRules_shape label user oldP newP r hr with ⟨p, hp, hre⟩ | ⟨p, hp, hre⟩
      · refine Or.inl ⟨p, hp, ?_, hre⟩
        intro hpnew
        have h0 := hdel p
        rw [if_neg (by simp [hpnew])] at h0
        have h1 : 0 < (UpdateAppPolicyRules label user oldP newP).count
            (deleteRule label user p) := List.count_pos_iff.mpr (hre ▸ hr)
        omega
      · refine Or.inr ⟨p, hp, ?_, hre⟩
        intro hpold
        have h0 := hallow p
        rw [if_neg (by simp [hpold])] at h0
        have h1 : 0 < (UpdateAppPolicyRules label user oldP newP).count
            (allowRule label user p) := List.count_pos_iff.mpr (hre ▸ hr)
        omega
  · show SetPolicies (UpdateAppPolicyRules label user ["a", "b", "c"] ["b", "c", "d"])
      = _
    rw [hinst]
    rfl

/-- Witness for claim C2 at concrete sorted duplicate-free inputs. -/
theorem updateAppPolicy_diff_correct_witness :
    List.Sorted strLt ["a", "b", "c"]
  ∧ List.Sorted strLt ["b", "c", "d"]
  ∧ UpdateAppPolicy "App::label" "5001" ["a", "b", "c"] ["b", "c", "d"]
      = [AdminCall.setPolicies
          [deleteRule "App::label" "5001" "a", allowRule "App::label" "5001" "d"]] :=
  ⟨by decide, by decide,
    (updateAppPolicy_diff_correct "App::label" "5001" ["a", "b", "c"] ["b", "c", "d"]
      (by decide) (by decide)).2.2.2.2.2⟩

/-! ## Claim C8 -/

/-- The contribution of one listed rule's user token to the ListUsers result:
the stoul value truncated into 32-bit uid_t, or nothing when std::stoul throws
std::invalid_argument (non-numeric token). -/
def stoulValue (u : String) : Option Nat :=
  match stoul u with
  | .ok v => some (v % UINT32_MOD)
  | _ => none

theorem listUsersLoop_eq : ∀ rs : List CynaraAdminPolicy,
    (∀ r ∈ rs, stoul r.user ≠ .outOfRange) →
    ListUsersLoop rs = .ok (rs.filterMap fun r =>
      if r.user = CYNARA_ADMIN_WILDCARD then none else stoulValue r.user) := by
  intro rs
  induction rs with
  | nil => intro _; rfl
  | cons r rs ih =>
      intro h
      have hr := h r (List.mem_cons_self _ _)
      have hrs := ih fun x hx => h x (List.mem_cons_of_mem _ hx)
      by_cases hw : r.user = CYNARA_ADMIN_WILDCARD
      · simp [ListUsersLoop, hw, hrs, List.filterMap_cons]
      · cases hs : stoul r.user with
        | invalidArgument =>
            simp [ListUsersLoop, hw, hs, hrs, List.filterMap_cons, stoulValue]
        | outOfRange => exact absurd hs hr
        | ok v =>
            simp [ListUsersLoop, hw, hs, hrs, List.filterMap_cons, stoulValue,
              Except.map]

theorem listPolicies_main_wildcard_fields (store : List CynaraAdminPolicy) :
    ∀ r ∈ ListPolicies store (Buckets .MAIN) CYNARA_ADMIN_WILDCARD CYNARA_ADMIN_ANY
        CYNARA_ADMIN_WILDCARD,
      r.bucket = Buckets .MAIN ∧ r.client = CYNARA_ADMIN_WILDCARD
        ∧ r.privilege = CYNARA_ADMIN_WILDCARD := by
  intro r hr
  rw [ListPolicies, List.mem_filter] at hr
  have hcond := hr.2
  simp only [filterMatches, CYNARA_ADMIN_WILDCARD, CYNARA_ADMIN_ANY, Bool.and_eq_true,
    Bool.or_eq_true, beq_iff_eq] at hcond
  rcases hcond with ⟨⟨⟨hb, hc⟩, _⟩, hp⟩
  refine ⟨hb, ?_, ?_⟩
  · rcases hc with hc | hc
    · exact absurd hc (by decide)
    · exact hc
  · rcases hp with hp | hp
    · exact absurd hp (by decide)
    · exact hp

theorem listPolicies_users_nodup (store : List CynaraAdminPolicy)
    (hkeys : ((ListPolicies store (Buckets .MAIN) CYNARA_ADMIN_WILDCARD CYNARA_ADMIN_ANY
        CYNARA_ADMIN_WILDCARD).map fun r => (r.client, r.user, r.privilege)).Nodup) :
    ((ListPolicies store (Buckets .MAIN) CYNARA_ADMIN_WILDCARD CYNARA_ADMIN_ANY
        CYNARA_ADMIN_WILDCARD).map fun r => r.user).Nodup := by
  have hmapmap : ((ListPolicies store (Buckets .MAIN) CYNARA_ADMIN_WILDCARD
      CYNARA_ADMIN_ANY CYNARA_ADMIN_WILDCARD).map fun r =>
        (r.client, r.user, r.privilege)).map (fun k => k.2.1)
      = (ListPolicies store (Buckets .MAIN) CYNARA_ADMIN_WILDCARD CYNARA_ADMIN_ANY
          CYNARA_ADMIN_WILDCARD).map fun r => r.user := by
    rw [List.map_map]
    rfl
  rw [← hmapmap]
  refine List.Nodup.map_on ?_ hkeys
  intro k1 hk1 k2 hk2 heq
  rcases List.mem_map.mp hk1 with ⟨r1, hr1, hke1⟩
  rcases List.mem_map.mp hk2 with ⟨r2, hr2, hke2⟩
  have hf1 := listPolicies_main_wildcard_fields store r1 hr1
  have hf2 := listPolicies_main_wildcard_fields store r2 hr2
  subst hke1
  subst hke2
  simp only at heq
  simp [hf1.2.1, hf2.2.1, hf1.2.2, hf2.2.2, Prod.ext_iff, heq]

/-- Claim C8: listUsers reads exactly the MAIN-bucket rules whose client and
privilege are the wildcard token; under the policy-store key invariant (one
rule per (client, user, privilege) in a bucket) their user tokens are distinct;
provided no token overflows unsigned long, the call completes normally,
returning for every non-wildcard user token its parsed unsigned value while
each non-numeric token is skipped (std::invalid_argument is caught) rather
than being fatal. -/
theorem listUsers_parses_and_skips (store : List CynaraAdminPolicy)
    (hsafe : ∀ r ∈ ListPolicies store (Buckets .MAIN) CYNARA_ADMIN_WILDCARD
        CYNARA_ADMIN_ANY CYNARA_ADMIN_WILDCARD, stoul r.user ≠ .outOfRange)
    (hkeys : ((ListPolicies store (Buckets .MAIN) CYNARA_ADMIN_WILDCARD CYNARA_ADMIN_ANY
        CYNARA_ADMIN_WILDCARD).map fun r => (r.client, r.user, r.privilege)).Nodup) :
    (ListUsers store = .ok ((ListPolicies store (Buckets .MAIN) CYNARA_ADMIN_WILDCARD
        CYNARA_ADMIN_ANY CYNARA_ADMIN_WILDCARD).filterMap fun r =>
          if r.user = CYNARA_ADMIN_WILDCARD then none else stoulValue r.user))
  ∧ (∀ r ∈ ListPolicies store (Buckets .MAIN) CYNARA_ADMIN_WILDCARD CYNARA_ADMIN_ANY
        CYNARA_ADMIN_WILDCARD,
      r.bucket = Buckets .MAIN ∧ r.client = CYNARA_ADMIN_WILDCARD
        ∧ r.privilege = CYNARA_ADMIN_WILDCARD)
  ∧ ((ListPolicies store (Buckets .MAIN) CYNARA_ADMIN_WILDCARD CYNARA_ADMIN_ANY
      CYNARA_ADMIN_WILDCARD).map fun r => r.user).Nodup := by
  refine ⟨?_, listPolicies_main_wildcard_fields store, listPolicies_users_nodup store hkeys⟩
  rw [ListUsers]
  exact listUsersLoop_eq _ hsafe

/-- Concrete policy store for the claim C8 witness: a numeric uid rule, the
wildcard redirect rule, a non-numeric uid rule, plus rules filtered out by
bucket or client. -/
def sampleStore : List CynaraAdminPolicy :=
  [CynaraAdminPolicy.mk "MAIN" "*" "5001" "*" 2 (some "USER_TYPE_ADMIN"),
   CynaraAdminPolicy.mk "MAIN" "*" "*" "*" 2 (some "MANIFESTS"),
   CynaraAdminPolicy.mk "MAIN" "*" "bogus" "*" 2 (some "USER_TYPE_NORMAL"),
   CynaraAdminPolicy.mk "ADMIN" "*" "7" "*" 0 none,
   CynaraAdminPolicy.mk "MAIN" "someApp" "8" "priv" 3 none]

/-- Witness for claim C8: on the sample store the call completes normally with
exactly the one parsed uid; the wildcard token and the non-numeric token are
skipped. -/
theorem listUsers_parses_and_skips_witness :
    (∀ r ∈ ListPolicies sampleStore (Buckets .MAIN) CYNARA_ADMIN_WILDCARD
        CYNARA_ADMIN_ANY CYNARA_ADMIN_WILDCARD, stoul r.user ≠ .outOfRange)
  ∧ ((ListPolicies sampleStore (Buckets .MAIN) CYNARA_ADMIN_WILDCARD CYNARA_ADMIN_ANY
      CYNARA_ADMIN_WILDCARD).map fun r => (r.client, r.user, r.privilege)).Nodup
  ∧ ListUsers sampleStore = .ok [5001] := by
  refine ⟨by decide, by decide, ?_⟩
  rw [(listUsers_parses_and_skips sampleStore (by decide) (by decide)).1]
  decide

end SecurityManager
